import Mathlib

/-!
Verification of the camera subsystem of the `aitviewer` scene viewer
(`aitviewer/scene/camera.py`).

The Python code is shallowly embedded over the real numbers: numpy float
arrays become `Vec3` / `Mat4` records of reals, raised exceptions become
`Except CamErr` results, and the lazily-created matrix caches (attributes
that only exist after the first `update_matrices` call) become `Option Mat4`
fields that start out `none`.
-/

noncomputable section

/-- Three-dimensional real vector, modelling a numpy array of shape (3,). -/
structure Vec3 where
  x : ℝ
  y : ℝ
  z : ℝ
deriving DecidableEq

namespace Vec3

instance : Add Vec3 := ⟨fun a b => ⟨a.x + b.x, a.y + b.y, a.z + b.z⟩⟩
instance : Sub Vec3 := ⟨fun a b => ⟨a.x - b.x, a.y - b.y, a.z - b.z⟩⟩
instance : Neg Vec3 := ⟨fun a => ⟨-a.x, -a.y, -a.z⟩⟩
instance : SMul ℝ Vec3 := ⟨fun c a => ⟨c * a.x, c * a.y, c * a.z⟩⟩

/-- Dot product, modelling `np.dot` on 3-vectors. -/
def dot (a b : Vec3) : ℝ := a.x * b.x + a.y * b.y + a.z * b.z

/-- Cross product, modelling `np.cross` on 3-vectors. -/
def cross (a b : Vec3) : Vec3 :=
  ⟨a.y * b.z - a.z * b.y, a.z * b.x - a.x * b.z, a.x * b.y - a.y * b.x⟩

/-- Euclidean norm, modelling `np.linalg.norm` on a 3-vector. -/
def vnorm (a : Vec3) : ℝ := Real.sqrt (a.x ^ 2 + a.y ^ 2 + a.z ^ 2)

/-- Normalization `v / np.linalg.norm(v)` as used repeatedly in the code. -/
def normalize (a : Vec3) : Vec3 := (vnorm a)⁻¹ • a

end Vec3

/-- Four-by-four real matrix, modelling a numpy array of shape (4, 4). -/
structure Mat4 where
  m00 : ℝ
  m01 : ℝ
  m02 : ℝ
  m03 : ℝ
  m10 : ℝ
  m11 : ℝ
  m12 : ℝ
  m13 : ℝ
  m20 : ℝ
  m21 : ℝ
  m22 : ℝ
  m23 : ℝ
  m30 : ℝ
  m31 : ℝ
  m32 : ℝ
  m33 : ℝ

namespace Mat4

/-- Matrix product, modelling `np.matmul` / the `@` operator on 4x4 arrays. -/
def mul (A B : Mat4) : Mat4 where
  m00 := A.m00 * B.m00 + A.m01 * B.m10 + A.m02 * B.m20 + A.m03 * B.m30
  m01 := A.m00 * B.m01 + A.m01 * B.m11 + A.m02 * B.m21 + A.m03 * B.m31
  m02 := A.m00 * B.m02 + A.m01 * B.m12 + A.m02 * B.m22 + A.m03 * B.m32
  m03 := A.m00 * B.m03 + A.m01 * B.m13 + A.m02 * B.m23 + A.m03 * B.m33
  m10 := A.m10 * B.m00 + A.m11 * B.m10 + A.m12 * B.m20 + A.m13 * B.m30
  m11 := A.m10 * B.m01 + A.m11 * B.m11 + A.m12 * B.m21 + A.m13 * B.m31
  m12 := A.m10 * B.m02 + A.m11 * B.m12 + A.m12 * B.m22 + A.m13 * B.m32
  m13 := A.m10 * B.m03 + A.m11 * B.m13 + A.m12 * B.m23 + A.m13 * B.m33
  m20 := A.m20 * B.m00 + A.m21 * B.m10 + A.m22 * B.m20 + A.m23 * B.m30
  m21 := A.m20 * B.m01 + A.m21 * B.m11 + A.m22 * B.m21 + A.m23 * B.m31
  m22 := A.m20 * B.m02 + A.m21 * B.m12 + A.m22 * B.m22 + A.m23 * B.m32
  m23 := A.m20 * B.m03 + A.m21 * B.m13 + A.m22 * B.m23 + A.m23 * B.m33
  m30 := A.m30 * B.m00 + A.m31 * B.m10 + A.m32 * B.m20 + A.m33 * B.m30
  m31 := A.m30 * B.m01 + A.m31 * B.m11 + A.m32 * B.m21 + A.m33 * B.m31
  m32 := A.m30 * B.m02 + A.m31 * B.m12 + A.m32 * B.m22 + A.m33 * B.m32
  m33 := A.m30 * B.m03 + A.m31 * B.m13 + A.m32 * B.m23 + A.m33 * B.m33

/-- Identity matrix, modelling `np.eye(4)`. -/
def idm : Mat4 := ⟨1, 0, 0, 0, 0, 1, 0, 0, 0, 0, 1, 0, 0, 0, 0, 1⟩

/-- Determinant of a 3x3 matrix given entrywise (helper for the 4x4 inverse). -/
def det3 (a b c d e f g h i : ℝ) : ℝ :=
  a * (e * i - f * h) - b * (d * i - f * g) + c * (d * h - e * g)

/-- Determinant of a 4x4 matrix by Laplace expansion along the first row. -/
def det (M : Mat4) : ℝ :=
  M.m00 * det3 M.m11 M.m12 M.m13 M.m21 M.m22 M.m23 M.m31 M.m32 M.m33
    - M.m01 * det3 M.m10 M.m12 M.m13 M.m20 M.m22 M.m23 M.m30 M.m32 M.m33
    + M.m02 * det3 M.m10 M.m11 M.m13 M.m20 M.m21 M.m23 M.m30 M.m31 M.m33
    - M.m03 * det3 M.m10 M.m11 M.m12 M.m20 M.m21 M.m22 M.m30 M.m31 M.m32

/-- Matrix inverse via the adjugate, modelling `np.linalg.inv` on an invertible
4x4 matrix (entry (i,j) is cofactor (j,i) divided by the determinant). -/
def inv (M : Mat4) : Mat4 :=
  let d := det M
  { m00 :=  det3 M.m11 M.m12 M.m13 M.m21 M.m22 M.m23 M.m31 M.m32 M.m33 / d
    m01 := -det3 M.m01 M.m02 M.m03 M.m21 M.m22 M.m23 M.m31 M.m32 M.m33 / d
    m02 :=  det3 M.m01 M.m02 M.m03 M.m11 M.m12 M.m13 M.m31 M.m32 M.m33 / d
    m03 := -det3 M.m01 M.m02 M.m03 M.m11 M.m12 M.m13 M.m21 M.m22 M.m23 / d
    m10 := -det3 M.m10 M.m12 M.m13 M.m20 M.m22 M.m23 M.m30 M.m32 M.m33 / d
    m11 :=  det3 M.m00 M.m02 M.m03 M.m20 M.m22 M.m23 M.m30 M.m32 M.m33 / d
    m12 := -det3 M.m00 M.m02 M.m03 M.m10 M.m12 M.m13 M.m30 M.m32 M.m33 / d
    m13 :=  det3 M.m00 M.m02 M.m03 M.m10 M.m12 M.m13 M.m20 M.m22 M.m23 / d
    m20 :=  det3 M.m10 M.m11 M.m13 M.m20 M.m21 M.m23 M.m30 M.m31 M.m33 / d
    m21 := -det3 M.m00 M.m01 M.m03 M.m20 M.m21 M.m23 M.m30 M.m31 M.m33 / d
    m22 :=  det3 M.m00 M.m01 M.m03 M.m10 M.m11 M.m13 M.m30 M.m31 M.m33 / d
    m23 := -det3 M.m00 M.m01 M.m03 M.m10 M.m11 M.m13 M.m20 M.m21 M.m23 / d
    m30 := -det3 M.m10 M.m11 M.m12 M.m20 M.m21 M.m22 M.m30 M.m31 M.m32 / d
    m31 :=  det3 M.m00 M.m01 M.m02 M.m20 M.m21 M.m22 M.m30 M.m31 M.m32 / d
    m32 := -det3 M.m00 M.m01 M.m02 M.m10 M.m11 M.m12 M.m30 M.m31 M.m32 / d
    m33 :=  det3 M.m00 M.m01 M.m02 M.m10 M.m11 M.m12 M.m20 M.m21 M.m22 / d }

/-- Column `j` of the upper-left 3x3 block, modelling `M[:3, j]`. -/
def col0 (M : Mat4) : Vec3 := ⟨M.m00, M.m10, M.m20⟩

def col1 (M : Mat4) : Vec3 := ⟨M.m01, M.m11, M.m21⟩

def col2 (M : Mat4) : Vec3 := ⟨M.m02, M.m12, M.m22⟩

end Mat4

/-- Apply an affine 4x4 transform to a 3-vector, modelling
`_transform_vector`: `(transform @ np.concatenate([vector, [1]]))[:3]`. -/
def transformVector (M : Mat4) (v : Vec3) : Vec3 :=
  ⟨M.m00 * v.x + M.m01 * v.y + M.m02 * v.z + M.m03,
   M.m10 * v.x + M.m11 * v.y + M.m12 * v.z + M.m13,
   M.m20 * v.x + M.m21 * v.y + M.m22 * v.z + M.m23⟩

/-- Axis-angle rotation about a point, modelling
`trimesh.transformations.rotation_matrix(angle, direction, point)`:
the Rodrigues rotation about the normalized `direction`, conjugated by the
translation taking the origin to `point`. -/
def rotationMatrix (angle : ℝ) (direction point : Vec3) : Mat4 :=
  let d := Vec3.normalize direction
  let ca := Real.cos angle
  let sa := Real.sin angle
  let r00 := ca + d.x ^ 2 * (1 - ca)
  let r01 := d.x * d.y * (1 - ca) - d.z * sa
  let r02 := d.x * d.z * (1 - ca) + d.y * sa
  let r10 := d.y * d.x * (1 - ca) + d.z * sa
  let r11 := ca + d.y ^ 2 * (1 - ca)
  let r12 := d.y * d.z * (1 - ca) - d.x * sa
  let r20 := d.z * d.x * (1 - ca) - d.y * sa
  let r21 := d.z * d.y * (1 - ca) + d.x * sa
  let r22 := ca + d.z ^ 2 * (1 - ca)
  { m00 := r00, m01 := r01, m02 := r02
    m03 := point.x - (r00 * point.x + r01 * point.y + r02 * point.z)
    m10 := r10, m11 := r11, m12 := r12
    m13 := point.y - (r10 * point.x + r11 * point.y + r12 * point.z)
    m20 := r20, m21 := r21, m22 := r22
    m23 := point.z - (r20 * point.x + r21 * point.y + r22 * point.z)
    m30 := 0, m31 := 0, m32 := 0, m33 := 1 }

/-- Modelled from the spec: `lookAt(eye, target, up)` from
`aitviewer.scene.camera_utils` (the module is not part of the sources under
verification). Spec 4.1: forward = normalize(target - eye),
right = normalize(cross(forward, up)), recomputed up = cross(right, forward),
returning the inverse of that basis as the world-to-camera view matrix. -/
def look_at (eye target up : Vec3) : Mat4 :=
  let f := Vec3.normalize (target - eye)
  let r := Vec3.normalize (Vec3.cross f up)
  let u := Vec3.cross r f
  { m00 := r.x, m01 := r.y, m02 := r.z, m03 := -(Vec3.dot r eye)
    m10 := u.x, m11 := u.y, m12 := u.z, m13 := -(Vec3.dot u eye)
    m20 := -f.x, m21 := -f.y, m22 := -f.z, m23 := Vec3.dot f eye
    m30 := 0, m31 := 0, m32 := 0, m33 := 1 }

/-- Modelled from the spec: `perspective(fovYRadians, aspect, near, far)` from
`aitviewer.scene.camera_utils` (not part of the sources under verification).
Spec 4.1: the standard right-handed, -Z-forward OpenGL frustum matrix. -/
def perspective_projection (fovy aspect near far : ℝ) : Mat4 :=
  let t := Real.tan (fovy / 2)
  { m00 := 1 / (aspect * t), m01 := 0, m02 := 0, m03 := 0
    m10 := 0, m11 := 1 / t, m12 := 0, m13 := 0
    m20 := 0, m21 := 0, m22 := -(far + near) / (far - near)
    m23 := -(2 * far * near) / (far - near)
    m30 := 0, m31 := 0, m32 := -1, m33 := 0 }

/-- Modelled from the spec: `orthographic(xHalfExtent, yHalfExtent, near, far)`
from `aitviewer.scene.camera_utils` (not part of the sources under
verification). Spec 4.1: the analogous standard OpenGL orthographic matrix. -/
def orthographic_projection (xscale yscale near far : ℝ) : Mat4 :=
  { m00 := 1 / xscale, m01 := 0, m02 := 0, m03 := 0
    m10 := 0, m11 := 1 / yscale, m12 := 0, m13 := 0
    m20 := 0, m21 := 0, m22 := -2 / (far - near)
    m23 := -(far + near) / (far - near)
    m30 := 0, m31 := 0, m32 := 0, m33 := 1 }

/-- Errors raised by the camera code (modelled as values rather than Python
exceptions). `notReady` stands for the failure of a method that reads a
matrix cache before any `update_matrices` call (the attribute does not exist
yet); the spec calls this condition `NotReady`. -/
inductive CamErr where
  | notReady : CamErr
  | indexError : CamErr
  | fileNotFound : CamErr
deriving DecidableEq

/-- Modelling `np.sign` on a scalar. -/
def sgn (x : ℝ) : ℝ := if 0 < x then 1 else if x < 0 then -1 else 0

/-- State of a `PinholeCamera` instance. The three matrix caches are `none`
until the first `update_matrices` call creates them. -/
structure PinState where
  fov : ℝ
  is_ortho : Bool
  ortho_size : ℝ
  position : Vec3
  target : Vec3
  up : Vec3
  ZOOM_FACTOR : ℝ
  ROT_FACTOR : ℝ
  PAN_FACTOR : ℝ
  near : ℝ
  far : ℝ
  projection_matrix : Option Mat4
  view_matrix : Option Mat4
  view_projection_matrix : Option Mat4

/-- `PinholeCamera.__init__(fov, orthographic, znear, zfar)`: `orthographic`
is `None` for a perspective camera, or the orthographic size. -/
def mkPinhole (fov : ℝ) (orthographic : Option ℝ) (znear zfar : ℝ) : PinState where
  fov := fov
  is_ortho := orthographic.isSome
  ortho_size := orthographic.getD 1.0
  position := ⟨0, 0, 2.5⟩
  target := ⟨0, 0, 0⟩
  up := ⟨0, 1, 0⟩
  ZOOM_FACTOR := 4
  ROT_FACTOR := 0.0025
  PAN_FACTOR := 0.01
  near := znear
  far := zfar
  projection_matrix := none
  view_matrix := none
  view_projection_matrix := none

namespace PinState

/-- `PinholeCamera.forward`: `normalize(target - position)`. -/
def forward (s : PinState) : Vec3 := Vec3.normalize (s.target - s.position)

/-- `PinholeCamera.right`: `np.cross(up, forward)`. -/
def right (s : PinState) : Vec3 := Vec3.cross s.up s.forward

/-- `PinholeCamera.get_projection_matrix`. -/
def get_projection_matrix (s : PinState) : Except CamErr Mat4 :=
  match s.projection_matrix with
  | none => .error .notReady
  | some m => .ok m

/-- `PinholeCamera.get_view_matrix`. -/
def get_view_matrix (s : PinState) : Except CamErr Mat4 :=
  match s.view_matrix with
  | none => .error .notReady
  | some m => .ok m

/-- `PinholeCamera.get_view_projection_matrix`. -/
def get_view_projection_matrix (s : PinState) : Except CamErr Mat4 :=
  match s.view_projection_matrix with
  | none => .error .notReady
  | some m => .ok m

/-- `PinholeCamera.update_matrices(width, height)`; `np.deg2rad(fov)` is
`fov * pi / 180`. -/
def update_matrices (s : PinState) (width height : ℝ) : PinState :=
  let P :=
    if s.is_ortho then
      orthographic_projection (width / height * s.ortho_size) s.ortho_size s.near s.far
    else
      perspective_projection (s.fov * Real.pi / 180) (width / height) s.near s.far
  let V := look_at s.position s.target s.up
  { s with projection_matrix := some P, view_matrix := some V,
           view_projection_matrix := some (P.mul V) }

/-- `PinholeCamera.dolly_zoom(speed, move_target)`. `czoom` stands for the
configuration constant `C.camera_zoom_speed` (the configuration module is an
external collaborator supplying a scalar). -/
def dolly_zoom (s : PinState) (speed czoom : ℝ) (move_target : Bool) : PinState :=
  let os := max 0.0001 (s.ortho_size - 0.1 * sgn speed)
  let norm := max (Vec3.vnorm (s.position - s.target)) 2
  let fwd := s.forward
  let speed2 := speed * czoom
  if move_target then
    { s with ortho_size := os,
             position := s.position + (speed2 * norm) • fwd,
             target := s.target + (speed2 * norm) • fwd }
  else
    let movement_length := speed2 * norm
    let max_movement_length := max (Vec3.vnorm (s.target - s.position) - 0.01) 0
    { s with ortho_size := os,
             position := s.position + min movement_length max_movement_length • fwd }

/-- `PinholeCamera.rotate_azimuth_elevation(mouse_dx, mouse_dy)`. Reading
`self.view_matrix` on a camera whose matrices were never updated raises, so
the result is an `Except`; `np.linalg.inv` is `Mat4.inv`. -/
def rotate_azimuth_elevation (s : PinState) (mouse_dx mouse_dy : ℝ) :
    Except CamErr PinState :=
  match s.view_matrix with
  | none => .error .notReady
  | some V =>
    let cam_pose := V.inv
    let z_axis := cam_pose.col2
    let dot := Vec3.dot z_axis s.up
    let rot0 : Mat4 := Mat4.idm
    let rot1 :=
      if ¬(mouse_dy > 0 ∧ dot > 0 ∧ 1 - dot < 0.001) ∧
         ¬(mouse_dy < 0 ∧ dot < 0 ∧ 1 + dot < 0.001) then
        let x_axis := cam_pose.col0
        (rotationMatrix (s.ROT_FACTOR * -mouse_dy) x_axis s.target).mul rot0
      else rot0
    let y_axis := cam_pose.col1
    let x_speed := if 1 - |dot| < 0.01 then s.ROT_FACTOR / 10 else s.ROT_FACTOR
    let rot2 := (rotationMatrix (x_speed * -mouse_dx) y_axis s.target).mul rot1
    .ok { s with position := transformVector rot2 s.position }

/-- `PinholeCamera.rotate_azimuth(angle)`. -/
def rotate_azimuth (s : PinState) (angle : ℝ) : Except CamErr PinState :=
  if |angle| < 1e-8 then .ok s
  else
    match s.view_matrix with
    | none => .error .notReady
    | some V =>
      let cam_pose := V.inv
      let y_axis := cam_pose.col1
      let rot := rotationMatrix angle y_axis s.target
      .ok { s with position := transformVector rot s.position }

/-- `PinholeCamera.get_ray(x, y, width, height)`. -/
def get_ray (s : PinState) (x y width height : ℝ) : Except CamErr (Vec3 × Vec3) :=
  let w := width
  let h := height
  let sx0 := 2 * (x + 0.5) / w - 1
  let sy0 := 1 - 2 * (y + 0.5) / h
  let scale := if s.is_ortho then s.ortho_size else Real.tan (s.fov * Real.pi / 180 / 2)
  let screen_x := sx0 * (scale * w / h)
  let screen_y := sy0 * scale
  let pixel_2d : Vec3 := ⟨screen_x, screen_y, if s.is_ortho then 0 else -1⟩
  match s.view_matrix with
  | none => .error .notReady
  | some V =>
    let cam2world := V.inv
    let pixel_3d := transformVector cam2world pixel_2d
    if s.is_ortho then
      let ray_dir := s.forward
      .ok (pixel_3d, (Vec3.vnorm ray_dir)⁻¹ • ray_dir)
    else
      let ray_origin := transformVector cam2world ⟨0, 0, 0⟩
      let ray_dir := pixel_3d - ray_origin
      .ok (ray_origin, (Vec3.vnorm ray_dir)⁻¹ • ray_dir)

end PinState

/-- The persisted camera-parameter record written by `save_cam` and read by
`load_cam` (spec 6). -/
structure CamDict where
  position : Vec3
  target : Vec3
  up : Vec3
  ZOOM_FACTOR : ℝ
  ROT_FACTOR : ℝ
  PAN_FACTOR : ℝ
  near : ℝ
  far : ℝ

/-- `PinholeCamera.load_cam()`. The file system is an external collaborator:
`dirExists` is `os.path.exists` on the camera-parameter directory, and `file`
holds the record behind `cam_params.pkl` when that file exists (`none` when
`joblib.load` would raise a file-not-found error). The Bool in the result
records whether the diagnostic was printed. -/
def PinState.load_cam (s : PinState) (dirExists : Bool) (file : Option CamDict) :
    Except CamErr (PinState × Bool) :=
  if ¬dirExists then
    .ok (s, true)
  else
    match file with
    | none => .error .fileNotFound
    | some d =>
      .ok ({ s with position := d.position, target := d.target, up := d.up,
                    ZOOM_FACTOR := d.ZOOM_FACTOR, ROT_FACTOR := d.ROT_FACTOR,
                    PAN_FACTOR := d.PAN_FACTOR, near := d.near, far := d.far },
           false)

/-- State of a `WeakPerspectiveCamera` instance. `rightv`, `upv`, `forwardv`
model the `_right`, `_up`, `_forward` attributes. -/
structure WPState where
  scale : List (ℝ × ℝ)
  translation : List (ℝ × ℝ)
  n_frames : ℕ
  cols : ℝ
  rows : ℝ
  near : ℝ
  far : ℝ
  current_frame_id : ℕ
  position : Vec3
  rightv : Vec3
  upv : Vec3
  forwardv : Vec3
  projection_matrix : Option Mat4
  view_matrix : Option Mat4
  view_projection_matrix : Option Mat4

/-- `WeakPerspectiveCamera.__init__`: asserts that `scale` and `translation`
have the same number of frames (`none` models the `AssertionError`), passes
`n_frames = scale.shape[0]` to the base class, and fixes the axis-aligned
pose. A fresh node starts at frame 0. -/
def mkWeakPerspective (scale translation : List (ℝ × ℝ)) (cols rows near far : ℝ) :
    Option WPState :=
  if scale.length = translation.length then
    some
      { scale := scale
        translation := translation
        n_frames := scale.length
        cols := cols
        rows := rows
        near := near
        far := far
        current_frame_id := 0
        position := ⟨0, 0, 1⟩
        rightv := ⟨1, 0, 0⟩
        upv := ⟨0, 1, 0⟩
        forwardv := ⟨0, 0, -1⟩
        projection_matrix := none
        view_matrix := none
        view_projection_matrix := none }
  else none

namespace WPState

/-- `WeakPerspectiveCamera.update_matrices(width, height)`: reads the current
frame's `(sx, sy)` and `(tx, ty)` (an out-of-range frame index raises, hence
the `Option`), builds the weak-perspective projection, overwrites its depth
row with the orthographic depth terms, and caches the three matrices. -/
def update_matrices (s : WPState) (width height : ℝ) : Option WPState :=
  match s.scale.get? s.current_frame_id, s.translation.get? s.current_frame_id with
  | some (sx, sy), some (tx, ty) =>
    let window_ar := width / height
    let camera_ar := s.cols / s.rows
    let ar := camera_ar / window_ar
    let P : Mat4 :=
      { m00 := sx * ar, m01 := 0, m02 := 0, m03 := tx * sx * ar
        m10 := 0, m11 := sy, m12 := 0, m13 := -(ty * sy)
        m20 := 0, m21 := 0, m22 := 2 / (s.near - s.far)
        m23 := (s.far + s.near) / (s.near - s.far)
        m30 := 0, m31 := 0, m32 := 0, m33 := 1 }
    let V := look_at s.position s.forwardv ⟨0, 1, 0⟩
    some { s with projection_matrix := some P, view_matrix := some V,
                  view_projection_matrix := some (P.mul V) }
  | _, _ => none

/-- `WeakPerspectiveCamera.get_projection_matrix`. -/
def get_projection_matrix (s : WPState) : Except CamErr Mat4 :=
  match s.projection_matrix with
  | none => .error .notReady
  | some m => .ok m

/-- `WeakPerspectiveCamera.get_view_matrix`. -/
def get_view_matrix (s : WPState) : Except CamErr Mat4 :=
  match s.view_matrix with
  | none => .error .notReady
  | some m => .ok m

/-- `WeakPerspectiveCamera.get_view_projection_matrix`. -/
def get_view_projection_matrix (s : WPState) : Except CamErr Mat4 :=
  match s.view_projection_matrix with
  | none => .error .notReady
  | some m => .ok m

end WPState

/-- A 3x3 intrinsics matrix `K` in OpenCV layout. -/
structure Mat3 where
  a00 : ℝ
  a01 : ℝ
  a02 : ℝ
  a10 : ℝ
  a11 : ℝ
  a12 : ℝ
  a20 : ℝ
  a21 : ℝ
  a22 : ℝ

/-- A 3x4 OpenCV extrinsics matrix `Rt`: rotation rows `r0, r1, r2` and the
translation column `t` (so `t.x = Rt[0,3]`, `t.y = Rt[1,3]`, `t.z = Rt[2,3]`). -/
structure Mat34 where
  r0 : Vec3
  r1 : Vec3
  r2 : Vec3
  t : Vec3

/-- State of an `OpenCVCamera` instance. -/
structure CVState where
  K : Mat3
  Rt : Mat34
  cols : ℝ
  rows : ℝ
  near : ℝ
  far : ℝ
  n_frames : ℕ
  current_frame_id : ℕ
  projection_matrix : Option Mat4
  view_matrix : Option Mat4
  view_projection_matrix : Option Mat4

/-- `OpenCVCamera.__init__(K, Rt, cols, rows, ...)`: stores the calibration
data; matrix caches start out absent, and the node has a single frame. -/
def mkOpenCV (K : Mat3) (Rt : Mat34) (cols rows near far : ℝ) : CVState where
  K := K
  Rt := Rt
  cols := cols
  rows := rows
  near := near
  far := far
  n_frames := 1
  current_frame_id := 0
  projection_matrix := none
  view_matrix := none
  view_projection_matrix := none

namespace CVState

/-- `OpenCVCamera.position`: `-Rt[:, 0:3].T @ Rt[:, 3]`. -/
def position (s : CVState) : Vec3 :=
  -(s.Rt.t.x • s.Rt.r0 + s.Rt.t.y • s.Rt.r1 + s.Rt.t.z • s.Rt.r2)

/-- `OpenCVCamera.forward`: `Rt[2, :3]`. -/
def forward (s : CVState) : Vec3 := s.Rt.r2

/-- `OpenCVCamera.up`: `-Rt[1, :3]`. -/
def up (s : CVState) : Vec3 := -s.Rt.r1

/-- `OpenCVCamera.right`: `Rt[0, :3]`. -/
def right (s : CVState) : Vec3 := s.Rt.r0

/-- `OpenCVCamera.compute_opengl_view_projection(width, height)`: the view
matrix is `Rt` with rows 1 and 2 negated plus the homogeneous bottom row; the
projection is the NDC remap matrix times the calibration matrix `Kgl`. -/
def compute_opengl_view_projection (s : CVState) (width height : ℝ) : Mat4 × Mat4 :=
  let V : Mat4 :=
    { m00 := s.Rt.r0.x, m01 := s.Rt.r0.y, m02 := s.Rt.r0.z, m03 := s.Rt.t.x
      m10 := -s.Rt.r1.x, m11 := -s.Rt.r1.y, m12 := -s.Rt.r1.z, m13 := -s.Rt.t.y
      m20 := -s.Rt.r2.x, m21 := -s.Rt.r2.y, m22 := -s.Rt.r2.z, m23 := -s.Rt.t.z
      m30 := 0, m31 := 0, m32 := 0, m33 := 1 }
  let window_cols := width / height * s.rows
  let x_offset := (window_cols - s.cols) * 0.5
  let Kgl : Mat4 :=
    { m00 := -s.K.a00, m01 := 0, m02 := -(s.cols - s.K.a02) - x_offset, m03 := 0
      m10 := 0, m11 := -s.K.a11, m12 := s.rows - s.K.a12, m13 := 0
      m20 := 0, m21 := 0, m22 := -(s.near + s.far), m23 := -(s.near * s.far)
      m30 := 0, m31 := 0, m32 := -1, m33 := 0 }
  let NDC : Mat4 :=
    { m00 := -2 / window_cols, m01 := 0, m02 := 0, m03 := 1
      m10 := 0, m11 := -2 / s.rows, m12 := 0, m13 := -1
      m20 := 0, m21 := 0, m22 := 2 / (s.far - s.near)
      m23 := -(s.far + s.near) / (s.far - s.near)
      m30 := 0, m31 := 0, m32 := 0, m33 := 1 }
  (V, NDC.mul Kgl)

/-- `OpenCVCamera.update_matrices(width, height)`. -/
def update_matrices (s : CVState) (width height : ℝ) : CVState :=
  let VP := s.compute_opengl_view_projection width height
  { s with projection_matrix := some VP.2, view_matrix := some VP.1,
           view_projection_matrix := some (VP.2.mul VP.1) }

/-- `OpenCVCamera.get_projection_matrix`. -/
def get_projection_matrix (s : CVState) : Except CamErr Mat4 :=
  match s.projection_matrix with
  | none => .error .notReady
  | some m => .ok m

/-- `OpenCVCamera.get_view_matrix`. -/
def get_view_matrix (s : CVState) : Except CamErr Mat4 :=
  match s.view_matrix with
  | none => .error .notReady
  | some m => .ok m

/-- `OpenCVCamera.get_view_projection_matrix`. -/
def get_view_projection_matrix (s : CVState) : Except CamErr Mat4 :=
  match s.view_projection_matrix with
  | none => .error .notReady
  | some m => .ok m

end CVState

/-- The closed set of sequence-capable camera variants inheriting the base
class `Camera` and with it `Camera.show_frustum` (spec 9 recommends a closed
tagged-variant type for the fixed set of subclasses). -/
inductive AnyCamera where
  | wp (s : WPState) : AnyCamera
  | cv (s : CVState) : AnyCamera

namespace AnyCamera

/-- `self.n_frames` of the owning node. -/
def n_frames : AnyCamera → ℕ
  | .wp s => s.n_frames
  | .cv s => s.n_frames

/-- `self.current_frame_id` of the owning node. -/
def current_frame_id : AnyCamera → ℕ
  | .wp s => s.current_frame_id
  | .cv s => s.current_frame_id

/-- Assignment `self.current_frame_id = i`. -/
def set_frame : AnyCamera → ℕ → AnyCamera
  | .wp s, i => .wp { s with current_frame_id := i }
  | .cv s, i => .cv { s with current_frame_id := i }

/-- Dynamic dispatch of `update_matrices` (`Option` because the weak
perspective variant raises on an out-of-range frame index). -/
def update_matrices : AnyCamera → ℝ → ℝ → Option AnyCamera
  | .wp s, w, h => (s.update_matrices w h).map .wp
  | .cv s, w, h => some (.cv (s.update_matrices w h))

/-- Dynamic dispatch of `get_view_matrix`. -/
def get_view_matrix : AnyCamera → Except CamErr Mat4
  | .wp s => s.get_view_matrix
  | .cv s => s.get_view_matrix

/-- Dynamic dispatch of `get_projection_matrix`. -/
def get_projection_matrix : AnyCamera → Except CamErr Mat4
  | .wp s => s.get_projection_matrix
  | .cv s => s.get_projection_matrix

/-- Dynamic dispatch of the `position` property. -/
def position : AnyCamera → Vec3
  | .wp s => s.position
  | .cv s => s.position

/-- Dynamic dispatch of the `forward` property. -/
def forward : AnyCamera → Vec3
  | .wp s => s.forwardv
  | .cv s => s.forward

end AnyCamera

/-- Apply a 4x4 matrix to the homogeneous extension of a 3-vector and divide
by the resulting fourth coordinate, modelling the local `transform` helper of
`show_frustum` (`v = world_from_ndc @ np.append(x, 1.0); v[:3] / v[3]`). -/
def projectPoint (M : Mat4) (p : Vec3) : Vec3 :=
  let w := M.m30 * p.x + M.m31 * p.y + M.m32 * p.z + M.m33
  ⟨(M.m00 * p.x + M.m01 * p.y + M.m02 * p.z + M.m03) / w,
   (M.m10 * p.x + M.m11 * p.y + M.m12 * p.z + M.m13) / w,
   (M.m20 * p.x + M.m21 * p.y + M.m22 * p.z + M.m23) / w⟩

/-- Third homogeneous coordinate of `M @ [p, 1]` (used for `ndc_p[2]`). -/
def homZ (M : Mat4) (p : Vec3) : ℝ := M.m20 * p.x + M.m21 * p.y + M.m22 * p.z + M.m23

/-- Fourth homogeneous coordinate of `M @ [p, 1]` (used for `ndc_p[3]`). -/
def homW (M : Mat4) (p : Vec3) : ℝ := M.m30 * p.x + M.m31 * p.y + M.m32 * p.z + M.m33

/-- One iteration of the `show_frustum` loop for frame `i`: select the frame,
update the matrices, read `V` and `P`, compute the adjusted far-plane depth
`z` of the point at the visualization distance, build the 24 canonical
frustum corner points and map them back to world space. -/
def frustumFrame (c : AnyCamera) (width height distance : ℝ) (i : ℕ) :
    Option (List Vec3 × AnyCamera) :=
  match (c.set_frame i).update_matrices width height with
  | none => none
  | some c1 =>
    match c1.get_view_matrix, c1.get_projection_matrix with
    | .ok V, .ok P =>
      let ndc_from_world := P.mul V
      let world_from_ndc := ndc_from_world.inv
      let world_p := c1.position + distance • c1.forward
      let z := homZ ndc_from_world world_p / homW ndc_from_world world_p
      let lines : List Vec3 :=
        [⟨-1, -1, -1⟩, ⟨-1, 1, -1⟩,
         ⟨-1, -1, z⟩, ⟨-1, 1, z⟩,
         ⟨1, -1, -1⟩, ⟨1, 1, -1⟩,
         ⟨1, -1, z⟩, ⟨1, 1, z⟩,
         ⟨-1, -1, -1⟩, ⟨-1, -1, z⟩,
         ⟨-1, 1, -1⟩, ⟨-1, 1, z⟩,
         ⟨1, -1, -1⟩, ⟨1, -1, z⟩,
         ⟨1, 1, -1⟩, ⟨1, 1, z⟩,
         ⟨-1, -1, -1⟩, ⟨1, -1, -1⟩,
         ⟨-1, -1, z⟩, ⟨1, -1, z⟩,
         ⟨-1, 1, -1⟩, ⟨1, 1, -1⟩,
         ⟨-1, 1, z⟩, ⟨1, 1, z⟩]
      some (lines.map (projectPoint world_from_ndc), c1)
    | _, _ => none

/-- The `for i in range(self.n_frames)` loop of `Camera.show_frustum`,
threading the mutated camera through the iterations and collecting each
frame's line list in order. -/
def frustumSweep (width height distance : ℝ) :
    List ℕ → AnyCamera → Option (List (List Vec3) × AnyCamera)
  | [], c => some ([], c)
  | i :: rest, c =>
    match frustumFrame c width height distance i with
    | none => none
    | some (lines, c1) =>
      match frustumSweep width height distance rest c1 with
      | none => none
      | some (ls, c2) => some (lines :: ls, c2)

/-- `Camera.show_frustum(width, height, distance)`: records the current frame
index, sweeps all frames of the sequence, and restores the recorded frame
index afterward. Returns the per-frame line lists with the final camera. -/
def AnyCamera.show_frustum (c : AnyCamera) (width height distance : ℝ) :
    Option (List (List Vec3) × AnyCamera) :=
  let frame_id := c.current_frame_id
  match frustumSweep width height distance (List.range c.n_frames) c with
  | none => none
  | some (ls, c1) => some (ls, c1.set_frame frame_id)

/-- Identity-like intrinsics for the concrete OpenCV instance. -/
def K_id : Mat3 := ⟨1, 0, 0, 0, 1, 0, 0, 0, 1⟩

/-- Extrinsics with identity rotation and zero translation. -/
def Rt_id : Mat34 := ⟨⟨1, 0, 0⟩, ⟨0, 1, 0⟩, ⟨0, 0, 1⟩, ⟨0, 0, 0⟩⟩

/-- A concrete one-frame weak-perspective camera used in concrete instances:
the state produced by `mkWeakPerspective [(1, 1)] [(0, 0)] 640 480 0.1 100`. -/
def wp1 : WPState where
  scale := [(1, 1)]
  translation := [(0, 0)]
  n_frames := 1
  cols := 640
  rows := 480
  near := 0.1
  far := 100
  current_frame_id := 0
  position := ⟨0, 0, 1⟩
  rightv := ⟨1, 0, 0⟩
  upv := ⟨0, 1, 0⟩
  forwardv := ⟨0, 0, -1⟩
  projection_matrix := none
  view_matrix := none
  view_projection_matrix := none

/-- The elevation singularity guard of `rotate_azimuth_elevation`: the
elevation rotation is skipped exactly when this predicate holds (the code
applies the rotation under the conjunction of the two negations). -/
def elevSkip (dy dot : ℝ) : Prop :=
  (dy > 0 ∧ dot > 0 ∧ 1 - dot < 0.001) ∨ (dy < 0 ∧ dot < 0 ∧ 1 + dot < 0.001)

/-- The azimuth speed selection of `rotate_azimuth_elevation`: the rotation
factor damped by 10 near the poles. -/
def azimuthSpeed (rf dot : ℝ) : ℝ := if 1 - |dot| < 0.01 then rf / 10 else rf

/-- The default pinhole camera after an `update_matrices(800, 600)` call. -/
def pinUpdated : PinState := (mkPinhole 45 none 0.1 100).update_matrices 800 600

/-- The view matrix cached by `pinUpdated`. -/
def vDefault : Mat4 := look_at ⟨0, 0, 2.5⟩ ⟨0, 0, 0⟩ ⟨0, 1, 0⟩

/-- A tilted pinhole camera: the default camera with its position moved to
`(0, 1, 1)` (so its forward direction is not orthogonal to the scene up
vector), after an `update_matrices(800, 600)` call. -/
def pinTilted : PinState :=
  PinState.update_matrices { mkPinhole 45 none 0.1 100 with position := ⟨0, 1, 1⟩ } 800 600

/-- The view matrix cached by `pinTilted`. -/
def vTilted : Mat4 := look_at ⟨0, 1, 1⟩ ⟨0, 0, 0⟩ ⟨0, 1, 0⟩

/-- The value of `vTilted` written out (with `a := (sqrt 2)⁻¹` the rows are
`(1,0,0,0)`, `(0,a,-a,0)`, `(0,a,a,-2a)`, `(0,0,0,1)`). -/
def vTiltedX : Mat4 :=
  ⟨1, 0, 0, 0,
   0, (Real.sqrt 2)⁻¹, -(Real.sqrt 2)⁻¹, 0,
   0, (Real.sqrt 2)⁻¹, (Real.sqrt 2)⁻¹, -(2 * (Real.sqrt 2)⁻¹),
   0, 0, 0, 1⟩

/-- The behavior the spec sentence ascribes to `rotateAzimuth`, stated from
the spec's words for comparison with the implementation: a pure azimuth
rotation of `position` about the world/scene up axis (the camera's stored up
vector) through `target`, a no-op when `|angle| < 1e-8`. The implementation
instead rotates about the camera's local y-axis taken from the inverse view
matrix. -/
def specRotateAzimuth (s : PinState) (angle : ℝ) : PinState :=
  if |angle| < 1e-8 then s
  else { s with position :=
    transformVector (rotationMatrix angle s.up s.target) s.position }

namespace Vec3

@[simp] theorem add_x (a b : Vec3) : (a + b).x = a.x + b.x := rfl
@[simp] theorem add_y (a b : Vec3) : (a + b).y = a.y + b.y := rfl
@[simp] theorem add_z (a b : Vec3) : (a + b).z = a.z + b.z := rfl
@[simp] theorem sub_x (a b : Vec3) : (a - b).x = a.x - b.x := rfl
@[simp] theorem sub_y (a b : Vec3) : (a - b).y = a.y - b.y := rfl
@[simp] theorem sub_z (a b : Vec3) : (a - b).z = a.z - b.z := rfl
@[simp] theorem neg_x (a : Vec3) : (-a).x = -a.x := rfl
@[simp] theorem neg_y (a : Vec3) : (-a).y = -a.y := rfl
@[simp] theorem neg_z (a : Vec3) : (-a).z = -a.z := rfl
@[simp] theorem smul_x (c : ℝ) (a : Vec3) : (c • a).x = c * a.x := rfl
@[simp] theorem smul_y (c : ℝ) (a : Vec3) : (c • a).y = c * a.y := rfl
@[simp] theorem smul_z (c : ℝ) (a : Vec3) : (c • a).z = c * a.z := rfl

theorem ext_iff {a b : Vec3} : a = b ↔ a.x = b.x ∧ a.y = b.y ∧ a.z = b.z := by
  cases a; cases b; simp

theorem vnorm_nonneg (a : Vec3) : 0 ≤ vnorm a := Real.sqrt_nonneg _

theorem vnorm_smul (c : ℝ) (a : Vec3) : vnorm (c • a) = |c| * vnorm a := by
  simp only [vnorm, smul_x, smul_y, smul_z]
  rw [show (c * a.x) ^ 2 + (c * a.y) ^ 2 + (c * a.z) ^ 2
        = c ^ 2 * (a.x ^ 2 + a.y ^ 2 + a.z ^ 2) by ring,
    Real.sqrt_mul (sq_nonneg c), Real.sqrt_sq_eq_abs]

theorem vnorm_sub_comm (a b : Vec3) : vnorm (a - b) = vnorm (b - a) := by
  simp only [vnorm, sub_x, sub_y, sub_z]
  congr 1
  ring

end Vec3

namespace Mat4

theorem mul_idm (A : Mat4) : A.mul idm = A := by
  cases A
  simp [mul, idm]

end Mat4

theorem mkWeakPerspective_wp1 :
    mkWeakPerspective [(1, 1)] [(0, 0)] 640 480 0.1 100 = some wp1 := rfl

/-- C1: for every camera variant and all viewport dimensions
`width, height > 0`, immediately after `update_matrices(width, height)` the
matrix returned by `get_view_projection_matrix()` is exactly the product of
the matrices returned by `get_projection_matrix()` and `get_view_matrix()`
(floating-point values are modelled as exact reals). -/
theorem view_projection_is_product :
    (∀ (s : PinState) (w h : ℝ), 0 < w → 0 < h →
      ∃ P V, (s.update_matrices w h).get_projection_matrix = .ok P ∧
        (s.update_matrices w h).get_view_matrix = .ok V ∧
        (s.update_matrices w h).get_view_projection_matrix = .ok (P.mul V)) ∧
    (∀ (s u : WPState) (w h : ℝ), 0 < w → 0 < h →
      s.update_matrices w h = some u →
      ∃ P V, u.get_projection_matrix = .ok P ∧
        u.get_view_matrix = .ok V ∧
        u.get_view_projection_matrix = .ok (P.mul V)) ∧
    (∀ (s : CVState) (w h : ℝ), 0 < w → 0 < h →
      ∃ P V, (s.update_matrices w h).get_projection_matrix = .ok P ∧
        (s.update_matrices w h).get_view_matrix = .ok V ∧
        (s.update_matrices w h).get_view_projection_matrix = .ok (P.mul V)) := by
  refine ⟨fun s w h _ _ => ⟨_, _, rfl, rfl, rfl⟩, fun s u w h _ _ hu => ?_,
    fun s w h _ _ => ⟨_, _, rfl, rfl, rfl⟩⟩
  unfold WPState.update_matrices at hu
  rcases hsc : s.scale.get? s.current_frame_id with _ | ⟨sx, sy⟩ <;> rw [hsc] at hu
  · exact absurd hu (by simp)
  rcases htr : s.translation.get? s.current_frame_id with _ | ⟨tx, ty⟩ <;> rw [htr] at hu
  · exact absurd hu (by simp)
  simp only [Option.some_inj] at hu
  subst hu
  exact ⟨_, _, rfl, rfl, rfl⟩

/-- Concrete instance for `view_projection_is_product`, discharging its
hypotheses at explicit inputs. -/
theorem view_projection_is_product_witness :
    (∃ P V,
      ((mkPinhole 45 none 0.1 100).update_matrices 800 600).get_projection_matrix = .ok P ∧
      ((mkPinhole 45 none 0.1 100).update_matrices 800 600).get_view_matrix = .ok V ∧
      ((mkPinhole 45 none 0.1 100).update_matrices 800 600).get_view_projection_matrix
        = .ok (P.mul V)) ∧
    (∃ u, wp1.update_matrices 800 600 = some u ∧
      ∃ P V, u.get_projection_matrix = .ok P ∧ u.get_view_matrix = .ok V ∧
        u.get_view_projection_matrix = .ok (P.mul V)) ∧
    (∃ P V,
      ((mkOpenCV K_id Rt_id 640 480 0.1 100).update_matrices 800 600).get_projection_matrix
        = .ok P ∧
      ((mkOpenCV K_id Rt_id 640 480 0.1 100).update_matrices 800 600).get_view_matrix
        = .ok V ∧
      ((mkOpenCV K_id Rt_id 640 480 0.1 100).update_matrices 800 600).get_view_projection_matrix
        = .ok (P.mul V)) := by
  refine ⟨view_projection_is_product.1 _ 800 600 (by norm_num) (by norm_num),
    ⟨_, rfl, view_projection_is_product.2.1 wp1 _ 800 600 (by norm_num) (by norm_num) rfl⟩,
    view_projection_is_product.2.2 _ 800 600 (by norm_num) (by norm_num)⟩

/-- C2: for every camera variant, each of the three matrix getters fails with
the `NotReady` error when called on a freshly constructed camera, before any
`update_matrices` call, instead of returning a stale or default matrix. -/
theorem getters_fail_before_update :
    (∀ (fov : ℝ) (orthographic : Option ℝ) (znear zfar : ℝ),
      (mkPinhole fov orthographic znear zfar).get_projection_matrix = .error .notReady ∧
      (mkPinhole fov orthographic znear zfar).get_view_matrix = .error .notReady ∧
      (mkPinhole fov orthographic znear zfar).get_view_projection_matrix
        = .error .notReady) ∧
    (∀ (scale translation : List (ℝ × ℝ)) (cols rows near far : ℝ) (s : WPState),
      mkWeakPerspective scale translation cols rows near far = some s →
      s.get_projection_matrix = .error .notReady ∧
      s.get_view_matrix = .error .notReady ∧
      s.get_view_projection_matrix = .error .notReady) ∧
    (∀ (K : Mat3) (Rt : Mat34) (cols rows near far : ℝ),
      (mkOpenCV K Rt cols rows near far).get_projection_matrix = .error .notReady ∧
      (mkOpenCV K Rt cols rows near far).get_view_matrix = .error .notReady ∧
      (mkOpenCV K Rt cols rows near far).get_view_projection_matrix
        = .error .notReady) := by
  refine ⟨fun _ _ _ _ => ⟨rfl, rfl, rfl⟩, fun scale translation cols rows near far s hs => ?_,
    fun _ _ _ _ _ _ => ⟨rfl, rfl, rfl⟩⟩
  unfold mkWeakPerspective at hs
  split at hs
  · simp only [Option.some_inj] at hs
    subst hs
    exact ⟨rfl, rfl, rfl⟩
  · exact absurd hs (by simp)

/-- Concrete instance for `getters_fail_before_update`, discharging the
constructor-success hypothesis of its weak-perspective part. -/
theorem getters_fail_before_update_witness :
    mkWeakPerspective [(1, 1)] [(0, 0)] 640 480 0.1 100 = some wp1 ∧
    wp1.get_projection_matrix = .error .notReady ∧
    wp1.get_view_matrix = .error .notReady ∧
    wp1.get_view_projection_matrix = .error .notReady :=
  ⟨rfl, getters_fail_before_update.2.1 [(1, 1)] [(0, 0)] 640 480 0.1 100 wp1 rfl⟩

/-- C7: the pose accessors of `OpenCVCamera` are derived from `Rt` as
`position = -Rᵀ t` (entrywise: the dot product of the respective column of
the rotation part with the translation, negated), `forward` = row 2,
`up` = minus row 1, `right` = row 0; for identity `Rt` the position is the
origin and `forward` is the OpenCV canonical forward axis `(0, 0, 1)`. -/
theorem opencv_pose_accessors :
    (∀ (K : Mat3) (Rt : Mat34) (cols rows near far : ℝ),
      (mkOpenCV K Rt cols rows near far).position.x
          = -(Vec3.dot ⟨Rt.r0.x, Rt.r1.x, Rt.r2.x⟩ Rt.t) ∧
      (mkOpenCV K Rt cols rows near far).position.y
          = -(Vec3.dot ⟨Rt.r0.y, Rt.r1.y, Rt.r2.y⟩ Rt.t) ∧
      (mkOpenCV K Rt cols rows near far).position.z
          = -(Vec3.dot ⟨Rt.r0.z, Rt.r1.z, Rt.r2.z⟩ Rt.t) ∧
      (mkOpenCV K Rt cols rows near far).forward = Rt.r2 ∧
      (mkOpenCV K Rt cols rows near far).up = -Rt.r1 ∧
      (mkOpenCV K Rt cols rows near far).right = Rt.r0) ∧
    (mkOpenCV K_id Rt_id 640 480 0.1 100).position = ⟨0, 0, 0⟩ ∧
    (mkOpenCV K_id Rt_id 640 480 0.1 100).forward = ⟨0, 0, 1⟩ := by
  refine ⟨fun K Rt cols rows near far => ⟨?_, ?_, ?_, rfl, rfl, rfl⟩, ?_, rfl⟩ <;>
    simp [mkOpenCV, CVState.position, CVState.forward, Vec3.dot, Vec3.ext_iff,
      K_id, Rt_id] <;> ring

/-- C8 counterexample: when the camera-parameter directory exists but the
file `cam_params.pkl` behind it does not, `load_cam` is not non-fatal: the
file-not-found error of the underlying load escapes to the caller (the code
only guards `os.path.exists` on the directory, not on the file). -/
theorem load_cam_missing_file_counterexample :
    (mkPinhole 45 none 0.1 100).load_cam true none = .error .fileNotFound := rfl

/-- C8 amended: `load_cam` is non-fatal exactly when the camera-parameter
directory is missing — it prints the diagnostic and leaves every field of
the state unchanged; when the directory exists but the file is missing, the
load error propagates into caller logic. -/
theorem load_cam_missing_dir_non_fatal :
    (∀ (s : PinState) (file : Option CamDict), s.load_cam false file = .ok (s, true)) ∧
    (∀ s : PinState, s.load_cam true none = .error .fileNotFound) :=
  ⟨fun _ _ => rfl, fun _ => rfl⟩

/-- C10: on a freshly constructed `PinholeCamera` whose matrices were never
updated, `rotate_azimuth_elevation`, `rotate_azimuth` with
`|angle| >= 1e-8`, and `get_ray` all fail, because each reads the cached
view matrix that only exists after the first `update_matrices` call. -/
theorem navigation_requires_update :
    (∀ (fov : ℝ) (orthographic : Option ℝ) (znear zfar dx dy : ℝ),
      (mkPinhole fov orthographic znear zfar).rotate_azimuth_elevation dx dy
        = .error .notReady) ∧
    (∀ (fov : ℝ) (orthographic : Option ℝ) (znear zfar angle : ℝ),
      1e-8 ≤ |angle| →
      (mkPinhole fov orthographic znear zfar).rotate_azimuth angle
        = .error .notReady) ∧
    (∀ (fov : ℝ) (orthographic : Option ℝ) (znear zfar x y w h : ℝ),
      (mkPinhole fov orthographic znear zfar).get_ray x y w h
        = .error .notReady) := by
  refine ⟨fun _ _ _ _ _ _ => rfl, fun fov orthographic znear zfar angle ha => ?_,
    fun _ _ _ _ _ _ _ _ => rfl⟩
  unfold PinState.rotate_azimuth
  rw [if_neg (not_lt.mpr ha)]
  rfl

/-- Concrete instance for `navigation_requires_update`, discharging the
angle-magnitude hypothesis at `angle = 1`. -/
theorem navigation_requires_update_witness :
    (1e-8 : ℝ) ≤ |(1 : ℝ)| ∧
    (mkPinhole 45 none 0.1 100).rotate_azimuth 1 = .error .notReady :=
  ⟨by norm_num, navigation_requires_update.2.1 45 none 0.1 100 1 (by norm_num)⟩

/-- C6: the weak-perspective projection built by `update_matrices` embeds the
`sx * ar, sy` scaling in rows 0 and 1 with the `tx, ty` translation terms
(`tx * sx * ar` and `-(ty * sy)`), carries the orthographic depth terms
`P[2][2] = 2 / (near - far)` and `P[2][3] = (far + near) / (near - far)`,
and when `cols / rows = width / height` the aspect factor `ar` is `1` and
the matrix reduces to the raw `sx, sy, tx, ty` form. -/
theorem weak_perspective_projection_entries (s u : WPState) (w h sx sy tx ty : ℝ)
    (hsc : s.scale.get? s.current_frame_id = some (sx, sy))
    (htr : s.translation.get? s.current_frame_id = some (tx, ty))
    (hu : s.update_matrices w h = some u)
    (hw : 0 < w) (hh : 0 < h) :
    ∃ P, u.projection_matrix = some P ∧
      P.m00 = sx * (s.cols / s.rows / (w / h)) ∧
      P.m03 = tx * sx * (s.cols / s.rows / (w / h)) ∧
      P.m11 = sy ∧
      P.m13 = -(ty * sy) ∧
      P.m22 = 2 / (s.near - s.far) ∧
      P.m23 = (s.far + s.near) / (s.near - s.far) ∧
      (s.cols / s.rows = w / h →
        s.cols / s.rows / (w / h) = 1 ∧
        P = { m00 := sx, m01 := 0, m02 := 0, m03 := tx * sx
              m10 := 0, m11 := sy, m12 := 0, m13 := -(ty * sy)
              m20 := 0, m21 := 0, m22 := 2 / (s.near - s.far)
              m23 := (s.far + s.near) / (s.near - s.far)
              m30 := 0, m31 := 0, m32 := 0, m33 := 1 }) := by
  unfold WPState.update_matrices at hu
  rw [hsc, htr] at hu
  simp only [Option.some_inj] at hu
  subst hu
  have har : s.cols / s.rows = w / h → s.cols / s.rows / (w / h) = 1 := by
    intro he
    rw [he]
    exact div_self (ne_of_gt (div_pos hw hh))
  refine ⟨_, rfl, rfl, rfl, rfl, rfl, rfl, rfl, fun he => ⟨har he, ?_⟩⟩
  have h1 := har he
  simp only [h1]
  congr 1 <;> ring

/-- Concrete instance for `weak_perspective_projection_entries`, discharging
its hypotheses on the one-frame camera `wp1` at viewport 800x600. -/
theorem weak_perspective_projection_entries_witness :
    ∃ u, wp1.update_matrices 800 600 = some u ∧
    ∃ P, u.projection_matrix = some P ∧
      P.m00 = 1 * (wp1.cols / wp1.rows / (800 / 600)) ∧
      P.m03 = 0 * 1 * (wp1.cols / wp1.rows / (800 / 600)) ∧
      P.m11 = 1 ∧
      P.m13 = -(0 * 1) ∧
      P.m22 = 2 / (wp1.near - wp1.far) ∧
      P.m23 = (wp1.far + wp1.near) / (wp1.near - wp1.far) ∧
      (wp1.cols / wp1.rows = 800 / 600 →
        wp1.cols / wp1.rows / (800 / 600) = 1 ∧
        P = { m00 := 1, m01 := 0, m02 := 0, m03 := 0 * 1
              m10 := 0, m11 := 1, m12 := 0, m13 := -(0 * 1)
              m20 := 0, m21 := 0, m22 := 2 / (wp1.near - wp1.far)
              m23 := (wp1.far + wp1.near) / (wp1.near - wp1.far)
              m30 := 0, m31 := 0, m32 := 0, m33 := 1 }) :=
  ⟨_, rfl, weak_perspective_projection_entries wp1 _ 800 600 1 1 0 0 rfl rfl rfl
    (by norm_num) (by norm_num)⟩

/-- One `dolly_zoom(speed, move_target=False)` call keeps the camera at
least 0.01 away from the target and does not move the target: the movement
along `forward` is clamped to at most `dist - 0.01`. -/
theorem dolly_zoom_step (s : PinState) (speed czoom : ℝ)
    (h : 0.01 ≤ Vec3.vnorm (s.target - s.position)) :
    0.01 ≤ Vec3.vnorm ((s.dolly_zoom speed czoom false).target -
        (s.dolly_zoom speed czoom false).position) ∧
    (s.dolly_zoom speed czoom false).target = s.target := by
  refine ⟨?_, rfl⟩
  have hd0 : (0 : ℝ) < Vec3.vnorm (s.target - s.position) :=
    lt_of_lt_of_le (by norm_num) h
  have hpos : (s.dolly_zoom speed czoom false).position
      = s.position + (min (speed * czoom * max (Vec3.vnorm (s.position - s.target)) 2)
          (max (Vec3.vnorm (s.target - s.position) - 0.01) 0)) • s.forward := rfl
  have htgt : (s.dolly_zoom speed czoom false).target = s.target := rfl
  rw [htgt, hpos]
  generalize hm : min (speed * czoom * max (Vec3.vnorm (s.position - s.target)) 2)
      (max (Vec3.vnorm (s.target - s.position) - 0.01) 0) = m
  have hmle : m ≤ Vec3.vnorm (s.target - s.position) - 0.01 := by
    rw [← hm]
    refine le_trans (min_le_right _ _) (le_of_eq (max_eq_left ?_))
    linarith
  have hveq : s.target - (s.position + m • s.forward)
      = (1 - m * (Vec3.vnorm (s.target - s.position))⁻¹) • (s.target - s.position) := by
    rw [Vec3.ext_iff]
    refine ⟨?_, ?_, ?_⟩ <;>
      simp [PinState.forward, Vec3.normalize] <;> ring
  rw [hveq, Vec3.vnorm_smul]
  have hfield : (1 - m * (Vec3.vnorm (s.target - s.position))⁻¹)
        * Vec3.vnorm (s.target - s.position)
      = Vec3.vnorm (s.target - s.position) - m := by
    field_simp
  have habs : |1 - m * (Vec3.vnorm (s.target - s.position))⁻¹|
        * Vec3.vnorm (s.target - s.position)
      = |Vec3.vnorm (s.target - s.position) - m| := by
    rw [← hfield, abs_mul, abs_of_pos hd0]
  rw [habs]
  calc (0.01 : ℝ) ≤ Vec3.vnorm (s.target - s.position) - m := by linarith
    _ ≤ |Vec3.vnorm (s.target - s.position) - m| := le_abs_self _

/-- C3: for every pinhole camera state at least 0.01 away from its target
and every finite sequence of `dolly_zoom(speed, move_target=False)` calls
with arbitrary speeds, the distance from the position to the target never
drops below 0.01, and the target itself is never moved. -/
theorem dolly_zoom_never_reaches_target (s : PinState) (czoom : ℝ) (speeds : List ℝ)
    (h : 0.01 ≤ Vec3.vnorm (s.target - s.position)) :
    0.01 ≤ Vec3.vnorm
        ((speeds.foldl (fun t sp => t.dolly_zoom sp czoom false) s).target -
         (speeds.foldl (fun t sp => t.dolly_zoom sp czoom false) s).position) ∧
    (speeds.foldl (fun t sp => t.dolly_zoom sp czoom false) s).target = s.target := by
  induction speeds generalizing s with
  | nil => exact ⟨h, rfl⟩
  | cons a l ih =>
    simp only [List.foldl_cons]
    obtain ⟨h1, _⟩ := dolly_zoom_step s a czoom h
    obtain ⟨h3, h4⟩ := ih (s.dolly_zoom a czoom false) h1
    exact ⟨h3, h4.trans rfl⟩

/-- Concrete instance for `dolly_zoom_never_reaches_target`: the default
camera is 2.5 away from the target, and two zoom calls keep it at least
0.01 away. -/
theorem dolly_zoom_never_reaches_target_witness :
    0.01 ≤ Vec3.vnorm ((mkPinhole 45 none 0.1 100).target -
        (mkPinhole 45 none 0.1 100).position) ∧
    0.01 ≤ Vec3.vnorm
        ((([1, -2] : List ℝ).foldl (fun t sp => t.dolly_zoom sp 1 false)
            (mkPinhole 45 none 0.1 100)).target -
         (([1, -2] : List ℝ).foldl (fun t sp => t.dolly_zoom sp 1 false)
            (mkPinhole 45 none 0.1 100)).position) := by
  have hd : 0.01 ≤ Vec3.vnorm ((mkPinhole 45 none 0.1 100).target -
      (mkPinhole 45 none 0.1 100).position) := by
    simp only [mkPinhole, Vec3.vnorm, Vec3.sub_x, Vec3.sub_y, Vec3.sub_z]
    exact Real.le_sqrt_of_sq_le (by norm_num)
  exact ⟨hd, (dolly_zoom_never_reaches_target (mkPinhole 45 none 0.1 100) 1 [1, -2] hd).1⟩

/-- A weak-perspective `update_matrices` call with an in-range frame index
succeeds and only fills the three matrix caches. -/
theorem wp_update_spec (s : WPState) (w h : ℝ)
    (h1 : s.current_frame_id < s.scale.length)
    (h2 : s.current_frame_id < s.translation.length) :
    ∃ P V, s.update_matrices w h = some { s with
      projection_matrix := some P, view_matrix := some V,
      view_projection_matrix := some (P.mul V) } := by
  obtain ⟨⟨sx, sy⟩, hp⟩ : ∃ p, s.scale.get? s.current_frame_id = some p :=
    ⟨_, List.get?_eq_get h1⟩
  obtain ⟨⟨tx, ty⟩, hq⟩ : ∃ q, s.translation.get? s.current_frame_id = some q :=
    ⟨_, List.get?_eq_get h2⟩
  unfold WPState.update_matrices
  rw [hp, hq]
  exact ⟨_, _, rfl⟩

/-- One frustum-sweep iteration on a weak-perspective camera with an
in-range frame index yields a 24-point line list and does not change the
per-frame parameter store. -/
theorem frustumFrame_wp (s : WPState) (width height distance : ℝ) (i : ℕ)
    (h1 : i < s.scale.length) (h2 : i < s.translation.length) :
    ∃ lines s1,
      frustumFrame (.wp s) width height distance i = some (lines, AnyCamera.wp s1) ∧
      lines.length = 24 ∧ s1.scale = s.scale ∧ s1.translation = s.translation ∧
      s1.n_frames = s.n_frames := by
  obtain ⟨P, V, hup⟩ := wp_update_spec { s with current_frame_id := i } width height h1 h2
  unfold frustumFrame
  dsimp only [AnyCamera.set_frame, AnyCamera.update_matrices]
  rw [hup]
  exact ⟨_, _, rfl, by simp, rfl, rfl, rfl⟩

/-- One frustum-sweep iteration on an OpenCV camera always yields a 24-point
line list and keeps the frame count. -/
theorem frustumFrame_cv (s : CVState) (width height distance : ℝ) (i : ℕ) :
    ∃ lines s1,
      frustumFrame (.cv s) width height distance i = some (lines, AnyCamera.cv s1) ∧
      lines.length = 24 ∧ s1.n_frames = s.n_frames :=
  ⟨_, _, rfl, by simp, rfl⟩

/-- The frustum-sweep loop over a list of in-range weak-perspective frame
indices produces one 24-point line list per index. -/
theorem frustumSweep_wp (width height distance : ℝ) (l : List ℕ) (s : WPState)
    (hl : ∀ i ∈ l, i < s.scale.length ∧ i < s.translation.length) :
    ∃ ls s1,
      frustumSweep width height distance l (.wp s) = some (ls, AnyCamera.wp s1) ∧
      ls.length = l.length ∧ (∀ x ∈ ls, x.length = 24) ∧
      s1.scale = s.scale ∧ s1.translation = s.translation ∧
      s1.n_frames = s.n_frames := by
  induction l generalizing s with
  | nil => exact ⟨[], s, rfl, rfl, by simp, rfl, rfl, rfl⟩
  | cons i rest ih =>
    obtain ⟨hi1, hi2⟩ := hl i (List.mem_cons_self _ _)
    obtain ⟨lines, s1, hf, hlen, hsc, htr, hnf⟩ :=
      frustumFrame_wp s width height distance i hi1 hi2
    obtain ⟨ls, s2, hsw, hlen2, hall, hsc2, htr2, hnf2⟩ :=
      ih s1 (fun j hj => by
        rw [hsc, htr]
        exact hl j (List.mem_cons_of_mem _ hj))
    refine ⟨lines :: ls, s2, ?_, by simp [hlen2], ?_, hsc2.trans hsc,
      htr2.trans htr, hnf2.trans hnf⟩
    · unfold frustumSweep
      simp only [hf, hsw]
    · intro x hx
      rcases List.mem_cons.mp hx with hx | hx
      · rw [hx]; exact hlen
      · exact hall x hx

/-- The frustum-sweep loop over any list of frame indices of an OpenCV
camera produces one 24-point line list per index. -/
theorem frustumSweep_cv (width height distance : ℝ) (l : List ℕ) (s : CVState) :
    ∃ ls s1,
      frustumSweep width height distance l (.cv s) = some (ls, AnyCamera.cv s1) ∧
      ls.length = l.length ∧ (∀ x ∈ ls, x.length = 24) ∧
      s1.n_frames = s.n_frames := by
  induction l generalizing s with
  | nil => exact ⟨[], s, rfl, rfl, by simp, rfl⟩
  | cons i rest ih =>
    obtain ⟨lines, s1, hf, hlen, hnf⟩ := frustumFrame_cv s width height distance i
    obtain ⟨ls, s2, hsw, hlen2, hall, hnf2⟩ := ih s1
    refine ⟨lines :: ls, s2, ?_, by simp [hlen2], ?_, hnf2.trans hnf⟩
    · unfold frustumSweep
      simp only [hf, hsw]
    · intro x hx
      rcases List.mem_cons.mp hx with hx | hx
      · rw [hx]; exact hlen
      · exact hall x hx

/-- C9: for both sequence-capable camera variants, `show_frustum` sweeps all
frame indices `0 .. n_frames - 1`, produces exactly one 24-point line list
per frame, and restores the camera's current frame index to the value it had
before the sweep. -/
theorem show_frustum_sweep :
    (∀ (s : WPState) (width height distance : ℝ),
      s.n_frames = s.scale.length → s.translation.length = s.scale.length →
      ∃ ls c1, AnyCamera.show_frustum (.wp s) width height distance = some (ls, c1) ∧
        ls.length = s.n_frames ∧ (∀ x ∈ ls, x.length = 24) ∧
        c1.current_frame_id = s.current_frame_id) ∧
    (∀ (s : CVState) (width height distance : ℝ),
      ∃ ls c1, AnyCamera.show_frustum (.cv s) width height distance = some (ls, c1) ∧
        ls.length = s.n_frames ∧ (∀ x ∈ ls, x.length = 24) ∧
        c1.current_frame_id = s.current_frame_id) := by
  constructor
  · intro s width height distance hn htr
    obtain ⟨ls, s1, hsw, hlen, hall, _, _, _⟩ :=
      frustumSweep_wp width height distance (List.range (AnyCamera.wp s).n_frames) s
        (fun i hi => by
          have hir := List.mem_range.mp hi
          dsimp only [AnyCamera.n_frames] at hir
          omega)
    refine ⟨ls, (AnyCamera.wp s1).set_frame s.current_frame_id, ?_, ?_, hall, rfl⟩
    · simp only [AnyCamera.show_frustum, AnyCamera.current_frame_id, hsw]
    · rw [hlen]
      simp [AnyCamera.n_frames]
  · intro s width height distance
    obtain ⟨ls, s1, hsw, hlen, hall, _⟩ :=
      frustumSweep_cv width height distance (List.range (AnyCamera.cv s).n_frames) s
    refine ⟨ls, (AnyCamera.cv s1).set_frame s.current_frame_id, ?_, ?_, hall, rfl⟩
    · simp only [AnyCamera.show_frustum, AnyCamera.current_frame_id, hsw]
    · rw [hlen]
      simp [AnyCamera.n_frames]

/-- Concrete instance for `show_frustum_sweep`, discharging the sequence
well-formedness hypotheses of its weak-perspective part on `wp1`. -/
theorem show_frustum_sweep_witness :
    wp1.n_frames = wp1.scale.length ∧ wp1.translation.length = wp1.scale.length ∧
    ∃ ls c1, AnyCamera.show_frustum (.wp wp1) 800 600 5 = some (ls, c1) ∧
      ls.length = wp1.n_frames ∧ (∀ x ∈ ls, x.length = 24) ∧
      c1.current_frame_id = wp1.current_frame_id :=
  ⟨rfl, rfl, show_frustum_sweep.1 wp1 800 600 5 rfl rfl⟩

/-- C4: with `dot` the dot product of the camera z-axis (column 2 of the
inverse cached view matrix) with `up`, `rotate_azimuth_elevation(dx, dy)`
applies the elevation rotation (angle `ROT_FACTOR * -dy` about the camera's
local x-axis through the target) exactly when the singularity guard
`elevSkip` does not hold, applies the azimuth rotation (about the camera's
local y-axis through the target) after it, selects the damped azimuth speed
`ROT_FACTOR / 10` exactly when `1 - |dot| < 0.01`, and changes only the
position. -/
theorem rotate_azimuth_elevation_characterization (s : PinState) (V : Mat4)
    (dx dy : ℝ) (hv : s.view_matrix = some V) :
    (¬ elevSkip dy (Vec3.dot V.inv.col2 s.up) →
      s.rotate_azimuth_elevation dx dy = .ok { s with position :=
        (transformVector
          ((rotationMatrix
              (azimuthSpeed s.ROT_FACTOR (Vec3.dot V.inv.col2 s.up) * -dx)
              V.inv.col1 s.target).mul
            (rotationMatrix (s.ROT_FACTOR * -dy) V.inv.col0 s.target))
          s.position) }) ∧
    (elevSkip dy (Vec3.dot V.inv.col2 s.up) →
      s.rotate_azimuth_elevation dx dy = .ok { s with position :=
        (transformVector
          (rotationMatrix
            (azimuthSpeed s.ROT_FACTOR (Vec3.dot V.inv.col2 s.up) * -dx)
            V.inv.col1 s.target)
          s.position) }) ∧
    (1 - |Vec3.dot V.inv.col2 s.up| < 0.01 →
      azimuthSpeed s.ROT_FACTOR (Vec3.dot V.inv.col2 s.up) = s.ROT_FACTOR / 10) ∧
    (¬(1 - |Vec3.dot V.inv.col2 s.up| < 0.01) →
      azimuthSpeed s.ROT_FACTOR (Vec3.dot V.inv.col2 s.up) = s.ROT_FACTOR) := by
  refine ⟨fun hns => ?_, fun hsk => ?_,
    fun hc => by unfold azimuthSpeed; rw [if_pos hc],
    fun hc => by unfold azimuthSpeed; rw [if_neg hc]⟩
  · unfold elevSkip at hns
    rw [not_or] at hns
    unfold PinState.rotate_azimuth_elevation
    rw [hv]
    show Except.ok _ = _
    rw [if_pos hns, Mat4.mul_idm]
    rfl
  · unfold elevSkip at hsk
    have hng : ¬(¬(dy > 0 ∧ Vec3.dot V.inv.col2 s.up > 0 ∧
          1 - Vec3.dot V.inv.col2 s.up < 0.001) ∧
        ¬(dy < 0 ∧ Vec3.dot V.inv.col2 s.up < 0 ∧
          1 + Vec3.dot V.inv.col2 s.up < 0.001)) :=
      fun hand => hsk.elim (fun h => hand.1 h) (fun h => hand.2 h)
    unfold PinState.rotate_azimuth_elevation
    rw [hv]
    show Except.ok _ = _
    rw [if_neg hng, Mat4.mul_idm]
    rfl

theorem sqrt_625 : Real.sqrt 6.25 = 2.5 := by
  rw [show (6.25 : ℝ) = 2.5 ^ 2 by norm_num, Real.sqrt_sq (by norm_num)]

/-- The view matrix of the default camera written out. -/
theorem vDefault_eq :
    vDefault = ⟨1, 0, 0, 0, 0, 1, 0, 0, 0, 0, 1, -2.5, 0, 0, 0, 1⟩ := by
  have hsub : (⟨0, 0, 0⟩ - ⟨0, 0, 2.5⟩ : Vec3) = ⟨0, 0, -2.5⟩ := by
    rw [Vec3.ext_iff]; norm_num
  have hnrm : Vec3.vnorm ⟨0, 0, -2.5⟩ = 2.5 := by
    show Real.sqrt ((0 : ℝ) ^ 2 + (0 : ℝ) ^ 2 + (-2.5 : ℝ) ^ 2) = 2.5
    rw [show (0 : ℝ) ^ 2 + (0 : ℝ) ^ 2 + (-2.5 : ℝ) ^ 2 = 2.5 ^ 2 by norm_num,
      Real.sqrt_sq (by norm_num)]
  have hf : Vec3.normalize ⟨0, 0, -2.5⟩ = ⟨0, 0, -1⟩ := by
    unfold Vec3.normalize
    rw [hnrm, Vec3.ext_iff]
    norm_num
  have hc1 : Vec3.cross ⟨0, 0, -1⟩ ⟨0, 1, 0⟩ = ⟨1, 0, 0⟩ := by
    unfold Vec3.cross; rw [Vec3.ext_iff]; norm_num
  have hnrm1 : Vec3.vnorm ⟨1, 0, 0⟩ = 1 := by
    show Real.sqrt ((1 : ℝ) ^ 2 + (0 : ℝ) ^ 2 + (0 : ℝ) ^ 2) = 1
    norm_num
  have hr : Vec3.normalize ⟨1, 0, 0⟩ = ⟨1, 0, 0⟩ := by
    unfold Vec3.normalize
    rw [hnrm1, Vec3.ext_iff]
    norm_num
  have hc2 : Vec3.cross ⟨1, 0, 0⟩ ⟨0, 0, -1⟩ = ⟨0, 1, 0⟩ := by
    unfold Vec3.cross; rw [Vec3.ext_iff]; norm_num
  simp only [vDefault, look_at, hsub, hf, hc1, hr, hc2]
  unfold Vec3.dot
  norm_num

/-- Column 2 of the inverse of the default camera's view matrix. -/
theorem vDefault_inv_col2 : vDefault.inv.col2 = ⟨0, 0, 1⟩ := by
  rw [vDefault_eq]
  unfold Mat4.inv Mat4.det Mat4.det3 Mat4.col2
  rw [Vec3.ext_iff]
  norm_num

/-- Concrete instance for `rotate_azimuth_elevation_characterization` on the
default updated camera, discharging the view-cache hypothesis and the branch
hypothesis (the camera looks level, so `dot = 0` and the elevation rotation
is applied). -/
theorem rotate_azimuth_elevation_characterization_witness :
    pinUpdated.view_matrix = some vDefault ∧
    ¬ elevSkip 1 (Vec3.dot vDefault.inv.col2 pinUpdated.up) ∧
    pinUpdated.rotate_azimuth_elevation 1 1 = .ok { pinUpdated with position :=
      (transformVector
        ((rotationMatrix
            (azimuthSpeed pinUpdated.ROT_FACTOR
              (Vec3.dot vDefault.inv.col2 pinUpdated.up) * -1)
            vDefault.inv.col1 pinUpdated.target).mul
          (rotationMatrix (pinUpdated.ROT_FACTOR * -1) vDefault.inv.col0
            pinUpdated.target))
        pinUpdated.position) } := by
  have hdot : Vec3.dot vDefault.inv.col2 pinUpdated.up = 0 := by
    rw [vDefault_inv_col2]
    show Vec3.dot ⟨0, 0, 1⟩ ⟨0, 1, 0⟩ = 0
    unfold Vec3.dot
    norm_num
  have hns : ¬ elevSkip 1 (Vec3.dot vDefault.inv.col2 pinUpdated.up) := by
    rw [hdot]
    unfold elevSkip
    norm_num
  exact ⟨rfl, hns,
    (rotate_azimuth_elevation_characterization pinUpdated vDefault 1 1 rfl).1 hns⟩

theorem sqrt_two_pos : (0 : ℝ) < Real.sqrt 2 := Real.sqrt_pos.mpr (by norm_num)

theorem inv_sqrt_two_sq : ((Real.sqrt 2)⁻¹) ^ 2 = 2⁻¹ := by
  rw [inv_pow, Real.sq_sqrt (by norm_num : (0 : ℝ) ≤ 2)]

/-- The view matrix of the tilted camera written out. -/
theorem vTilted_eq : vTilted = vTiltedX := by
  have hq0 : Real.sqrt 2 ≠ 0 := ne_of_gt sqrt_two_pos
  have hsub : (⟨0, 0, 0⟩ - ⟨0, 1, 1⟩ : Vec3) = ⟨0, -1, -1⟩ := by
    rw [Vec3.ext_iff]; norm_num
  have hnrm : Vec3.vnorm ⟨0, -1, -1⟩ = Real.sqrt 2 := by
    show Real.sqrt ((0 : ℝ) ^ 2 + (-1 : ℝ) ^ 2 + (-1 : ℝ) ^ 2) = Real.sqrt 2
    norm_num
  have hf : Vec3.normalize ⟨0, -1, -1⟩
      = ⟨0, -(Real.sqrt 2)⁻¹, -(Real.sqrt 2)⁻¹⟩ := by
    unfold Vec3.normalize
    rw [hnrm, Vec3.ext_iff]
    refine ⟨by simp, by simp, by simp⟩
  have hc1 : Vec3.cross ⟨0, -(Real.sqrt 2)⁻¹, -(Real.sqrt 2)⁻¹⟩ ⟨0, 1, 0⟩
      = ⟨(Real.sqrt 2)⁻¹, 0, 0⟩ := by
    unfold Vec3.cross
    rw [Vec3.ext_iff]
    refine ⟨by ring, by ring, by ring⟩
  have hnrm2 : Vec3.vnorm ⟨(Real.sqrt 2)⁻¹, 0, 0⟩ = (Real.sqrt 2)⁻¹ := by
    show Real.sqrt (((Real.sqrt 2)⁻¹) ^ 2 + (0 : ℝ) ^ 2 + (0 : ℝ) ^ 2)
        = (Real.sqrt 2)⁻¹
    rw [show ((Real.sqrt 2)⁻¹) ^ 2 + (0 : ℝ) ^ 2 + (0 : ℝ) ^ 2
        = ((Real.sqrt 2)⁻¹) ^ 2 by ring, Real.sqrt_sq (by positivity)]
  have hr : Vec3.normalize ⟨(Real.sqrt 2)⁻¹, 0, 0⟩ = ⟨1, 0, 0⟩ := by
    unfold Vec3.normalize
    rw [hnrm2, Vec3.ext_iff]
    refine ⟨?_, by simp, by simp⟩
    show ((Real.sqrt 2)⁻¹)⁻¹ * (Real.sqrt 2)⁻¹ = 1
    rw [inv_inv]
    exact mul_inv_cancel₀ hq0
  have hc2 : Vec3.cross ⟨1, 0, 0⟩ ⟨0, -(Real.sqrt 2)⁻¹, -(Real.sqrt 2)⁻¹⟩
      = ⟨0, (Real.sqrt 2)⁻¹, -(Real.sqrt 2)⁻¹⟩ := by
    unfold Vec3.cross
    rw [Vec3.ext_iff]
    refine ⟨by ring, by ring, by ring⟩
  simp only [vTilted, vTiltedX, look_at, hsub, hf, hc1, hr, hc2]
  unfold Vec3.dot
  rw [Mat4.mk.injEq]
  norm_num
  ring

/-- The determinant of the tilted view matrix is 1. -/
theorem vTiltedX_det : vTiltedX.det = 1 := by
  unfold vTiltedX Mat4.det Mat4.det3
  linear_combination 2 * inv_sqrt_two_sq

/-- Column 1 (the camera's local y-axis) of the inverse of the tilted view
matrix. -/
theorem vTiltedX_inv_col1 :
    vTiltedX.inv.col1 = ⟨0, (Real.sqrt 2)⁻¹, -(Real.sqrt 2)⁻¹⟩ := by
  unfold Mat4.col1 Mat4.inv
  rw [vTiltedX_det]
  unfold vTiltedX Mat4.det3
  rw [Vec3.ext_iff]
  norm_num

/-- Rotating `(0, 1, 1)` by `pi` about the tilted camera's local y-axis
through the origin sends the y-coordinate to -1. -/
theorem rotation_pi_local_y :
    (transformVector
      (rotationMatrix Real.pi ⟨0, (Real.sqrt 2)⁻¹, -(Real.sqrt 2)⁻¹⟩ ⟨0, 0, 0⟩)
      ⟨0, 1, 1⟩).y = -1 := by
  have hnrm : Vec3.vnorm ⟨0, (Real.sqrt 2)⁻¹, -(Real.sqrt 2)⁻¹⟩ = 1 := by
    show Real.sqrt ((0 : ℝ) ^ 2 + ((Real.sqrt 2)⁻¹) ^ 2 + (-(Real.sqrt 2)⁻¹) ^ 2) = 1
    rw [show (0 : ℝ) ^ 2 + ((Real.sqrt 2)⁻¹) ^ 2 + (-(Real.sqrt 2)⁻¹) ^ 2
        = 2 * ((Real.sqrt 2)⁻¹) ^ 2 by ring, inv_sqrt_two_sq]
    norm_num
  have hd : Vec3.normalize ⟨0, (Real.sqrt 2)⁻¹, -(Real.sqrt 2)⁻¹⟩
      = ⟨0, (Real.sqrt 2)⁻¹, -(Real.sqrt 2)⁻¹⟩ := by
    unfold Vec3.normalize
    rw [hnrm, Vec3.ext_iff]
    refine ⟨by simp, by simp, by simp⟩
  unfold rotationMatrix transformVector
  rw [hd]
  simp only [Real.cos_pi, Real.sin_pi]
  ring

/-- Rotating `(0, 1, 1)` by `pi` about the world up axis `(0, 1, 0)` through
the origin keeps the y-coordinate at 1. -/
theorem rotation_pi_world_up :
    (transformVector (rotationMatrix Real.pi ⟨0, 1, 0⟩ ⟨0, 0, 0⟩) ⟨0, 1, 1⟩).y
      = 1 := by
  have hnrm : Vec3.vnorm ⟨0, 1, 0⟩ = 1 := by
    show Real.sqrt ((0 : ℝ) ^ 2 + (1 : ℝ) ^ 2 + (0 : ℝ) ^ 2) = 1
    norm_num
  have hd : Vec3.normalize ⟨0, 1, 0⟩ = ⟨0, 1, 0⟩ := by
    unfold Vec3.normalize
    rw [hnrm, Vec3.ext_iff]
    refine ⟨by simp, by simp, by simp⟩
  unfold rotationMatrix transformVector
  rw [hd]
  simp only [Real.cos_pi, Real.sin_pi]
  ring

/-- C5 counterexample: on the tilted camera with updated matrices,
`rotate_azimuth(pi)` sends the position's y-coordinate to -1, whereas the
claimed rotation about the world/scene up axis through the target would send
it to 1 — the code rotates about the camera's local y-axis instead. -/
theorem rotate_azimuth_world_up_counterexample :
    (pinTilted.rotate_azimuth Real.pi).map (fun t => t.position.y) = .ok (-1) ∧
    (specRotateAzimuth pinTilted Real.pi).position.y = 1 ∧
    (pinTilted.rotate_azimuth Real.pi).map (fun t => t.position.y) ≠
      .ok ((specRotateAzimuth pinTilted Real.pi).position.y) := by
  have hnp : ¬ |Real.pi| < 1e-8 := by
    rw [abs_of_pos Real.pi_pos]
    push_neg
    nlinarith [Real.pi_gt_three]
  have hrot : pinTilted.rotate_azimuth Real.pi = .ok { pinTilted with position :=
      (transformVector (rotationMatrix Real.pi vTilted.inv.col1 pinTilted.target)
        pinTilted.position) } := by
    unfold PinState.rotate_azimuth
    rw [if_neg hnp]
    rfl
  have hcol1 : vTilted.inv.col1 = ⟨0, (Real.sqrt 2)⁻¹, -(Real.sqrt 2)⁻¹⟩ := by
    rw [vTilted_eq]
    exact vTiltedX_inv_col1
  have hy : (pinTilted.rotate_azimuth Real.pi).map (fun t => t.position.y)
      = .ok (-1) := by
    rw [hrot]
    show Except.ok ((transformVector
      (rotationMatrix Real.pi vTilted.inv.col1 pinTilted.target)
      pinTilted.position).y) = _
    rw [hcol1]
    show Except.ok ((transformVector
      (rotationMatrix Real.pi ⟨0, (Real.sqrt 2)⁻¹, -(Real.sqrt 2)⁻¹⟩ ⟨0, 0, 0⟩)
      ⟨0, 1, 1⟩).y) = _
    rw [rotation_pi_local_y]
  have hspec : (specRotateAzimuth pinTilted Real.pi).position.y = 1 := by
    unfold specRotateAzimuth
    rw [if_neg hnp]
    show (transformVector (rotationMatrix Real.pi ⟨0, 1, 0⟩ ⟨0, 0, 0⟩)
      ⟨0, 1, 1⟩).y = 1
    exact rotation_pi_world_up
  refine ⟨hy, hspec, ?_⟩
  rw [hy, hspec]
  intro hcontra
  simp only [Except.ok.injEq] at hcontra
  norm_num at hcontra

/-- C5 amended: `rotate_azimuth(angle)` is a no-op whenever
`|angle| < 1e-8` (in particular at angle 0), and otherwise rotates only the
position, about the camera's local y-axis (column 1 of the inverse cached
view matrix) through the target. -/
theorem rotate_azimuth_local_y_axis (s : PinState) (V : Mat4) (angle : ℝ)
    (hv : s.view_matrix = some V) :
    (|angle| < 1e-8 → s.rotate_azimuth angle = .ok s) ∧
    (¬ |angle| < 1e-8 → s.rotate_azimuth angle = .ok { s with position :=
      (transformVector (rotationMatrix angle V.inv.col1 s.target)
        s.position) }) := by
  constructor
  · intro h
    unfold PinState.rotate_azimuth
    rw [if_pos h]
  · intro h
    unfold PinState.rotate_azimuth
    rw [if_neg h, hv]

/-- Concrete instance for `rotate_azimuth_local_y_axis` on the tilted
camera, discharging the view-cache and angle hypotheses at angle 1. -/
theorem rotate_azimuth_local_y_axis_witness :
    pinTilted.view_matrix = some vTilted ∧ ¬ |(1 : ℝ)| < 1e-8 ∧
    pinTilted.rotate_azimuth 1 = .ok { pinTilted with position :=
      (transformVector (rotationMatrix 1 vTilted.inv.col1 pinTilted.target)
        pinTilted.position) } :=
  ⟨rfl, by norm_num,
    (rotate_azimuth_local_y_axis pinTilted vTilted 1 rfl).2 (by norm_num)⟩

end
